import Mathlib

/-!
Verification of the HTTP request layer in `src/lib/data/api.ts`.

The file shallowly embeds the dispatcher `apiCall` and the resource
operations built on it.  The network and the JSON decoder are modelled as
explicit inputs (a function from the built request to a response, and an
`Except` value holding the decode outcome), so every definition below is a
pure function of its inputs, translated statement by statement from the
TypeScript source.
-/

namespace Fambb

/-- Modelled from the spec: the externally owned session identity
(`$lib/types/identity`, not part of the sources).  The dispatcher only
reads its `accessToken` field, so only that field is modelled. -/
structure Identity where
  accessToken : String
deriving DecidableEq

/-- Modelled from the spec: the persistent session store
(`persistent.svelte`, not part of the sources).  `identity` is the
in-memory identity; `durable` is the copy committed to durable storage,
updated by `flush`. -/
structure SessionState where
  identity : Option Identity
  durable : Option Identity
deriving DecidableEq

/-- Modelled from the spec: `persistent.identity = v` assignment. -/
def setIdentity (st : SessionState) (v : Option Identity) : SessionState :=
  { st with identity := v }

/-- Modelled from the spec: `persistent.flush()` commits the current
in-memory identity to durable storage. -/
def flush (st : SessionState) : SessionState :=
  { st with durable := st.identity }

/-- The request assembled by `apiCall` before it is handed to `fetch`:
full URL, method, header list, and an optional serialized body
(`undefined` in the source is `none` here). -/
structure ApiRequest where
  url : String
  method : String
  headers : List (String × String)
  body : Option String
deriving DecidableEq

/-- JavaScript truthiness of `persistent.identity?.accessToken`: the
optional chain is truthy exactly when an identity is present and its
access token is a non-empty string. -/
def tokenTruthy : Option Identity → Bool
  | none => false
  | some id => !(id.accessToken == "")

/-- Header construction in `apiCall` (api.ts lines 46-52): start from
`Content-Type: application/json` and add the `Authorization` header only
when `persistent.identity?.accessToken` is truthy. -/
def buildHeaders : Option Identity → List (String × String)
  | none => [("Content-Type", "application/json")]
  | some id =>
    if id.accessToken == "" then
      [("Content-Type", "application/json")]
    else
      [("Content-Type", "application/json"),
       ("Authorization", "Bearer " ++ id.accessToken)]

/-- Request assembly in `apiCall` (api.ts lines 54-60): the full URL is
the base URL followed by the path, and the body field is
`body ? JSON.stringify(body) : undefined` — present exactly when the
caller passed a body.  `stringify` stands for `JSON.stringify`. -/
def mkRequest {β : Type} (stringify : β → String) (baseUrl : String)
    (ident : Option Identity) (url method : String) (body : Option β) :
    ApiRequest :=
  { url := baseUrl ++ url
    method := method
    headers := buildHeaders ident
    body := body.map stringify }

/-- One HTTP response as seen by `apiCall`: the numeric status, the body
read as text by `response.text()`, and the outcome of `response.json()`
(`Except.error` when the body is not valid JSON of type `T`). -/
structure HttpResponse (T : Type) where
  status : Nat
  text : String
  json : Except String T

/-- The `response.ok` predicate of `fetch`: status in the range 200-299. -/
def okStatus (s : Nat) : Bool :=
  decide (200 ≤ s ∧ s ≤ 299)

/-- The dispatcher `apiCall` (api.ts lines 41-76).  `net` is the network:
it maps the assembled request to the response.  The result pairs the
session state after the call with either an error message (the thrown
`Error`, or a decode failure) or the decoded value — `none` on 204. -/
def apiCall {T β : Type} (stringify : β → String) (baseUrl : String)
    (st : SessionState) (url : String) (method : String) (body : Option β)
    (net : ApiRequest → HttpResponse T) :
    SessionState × Except String (Option T) :=
  let response := net (mkRequest stringify baseUrl st.identity url method body)
  if okStatus response.status = false then
    let st1 :=
      if response.status = 401 then flush (setIdentity st none) else st
    (st1,
      Except.error
        ("API error: " ++ toString response.status ++ " - " ++ response.text))
  else if response.status = 204 then
    (st, Except.ok none)
  else
    (st,
      match response.json with
      | Except.ok v => Except.ok (some v)
      | Except.error e => Except.error e)

/-- The paginated envelope `PaginatedResponse<T>`: items, count of items
left on the server, and the pagination cursor. -/
structure PaginatedResponse (T : Type) where
  result : List T
  left : Int
  context : Int
deriving DecidableEq

/-- The optional filter and pagination parameters of `transactionsList`
(api.ts lines 90-108); `none` stands for the `null` default. -/
structure TransactionsListParams where
  currencyId : Option Int
  costCategoryId : Option Int
  period : Option String
  startDate : Option String
  endDate : Option String
  operation : Option String
  context : Int
  limit : Int

/-- URL construction of `transactionsList` (api.ts lines 109-121): a list
of particles starting with the mandatory context/limit query, followed by
one particle per non-null filter, joined with the empty separator. -/
def buildTransactionsUrl (p : TransactionsListParams) : String :=
  String.join
    (["/transactions?context=" ++ toString p.context ++ "&limit="
        ++ toString p.limit]
      ++ (match p.currencyId with
          | some v => ["&currencyId=" ++ toString v]
          | none => [])
      ++ (match p.costCategoryId with
          | some v => ["&costCategoryId=" ++ toString v]
          | none => [])
      ++ (match p.period with
          | some v => ["&period=" ++ v]
          | none => [])
      ++ (match p.startDate with
          | some v => ["&startDate=" ++ v]
          | none => [])
      ++ (match p.endDate with
          | some v => ["&endDate=" ++ v]
          | none => [])
      ++ (match p.operation with
          | some v => ["&operation=" ++ v]
          | none => []))

/-- The resource operation `transactionsList` (api.ts lines 90-133):
build the URL, call the dispatcher (modelled by `server`, the function
from the requested URL to the decoded paginated payload), then return the
server's items and `left` verbatim while recomputing the outgoing cursor
as `context + results.result.length`. -/
def transactionsList {T : Type} (p : TransactionsListParams)
    (server : String → PaginatedResponse T) : PaginatedResponse T :=
  let results := server (buildTransactionsUrl p)
  { context := p.context + results.result.length
    left := results.left
    result := results.result }

/-- The resource operation `costShortcutApply` (api.ts lines 186-195),
up to the request it produces: `POST` to the shortcut's path with
`requestBody ?? undefined` as the body. -/
def costShortcutApplyRequest {β : Type} (stringify : β → String)
    (baseUrl : String) (ident : Option Identity) (shortcutId : Int)
    (requestBody : Option β) : ApiRequest :=
  mkRequest stringify baseUrl ident
    ("/costs/shortcuts/" ++ toString shortcutId) "POST" requestBody

/-- The multi-result envelope `ResponseMulti<T>`. -/
structure ResponseMulti (T : Type) where
  result : List T
deriving DecidableEq

/-- A caller-visible JavaScript value returned by a list operation:
either a bare array, or a multi-result envelope object still wrapping
the array. -/
inductive JsValue (T : Type) where
  | arr : List T → JsValue T
  | obj : ResponseMulti T → JsValue T
deriving DecidableEq

/-- The resource operation `costCategoriesList` (api.ts lines 136-140):
returns the dispatcher's decoded envelope unchanged.  `server` models the
dispatcher as a function from the requested URL to the decoded payload. -/
def costCategoriesList {T : Type} (server : String → ResponseMulti T) :
    ResponseMulti T :=
  server "/costs/categories"

/-- The resource operation `costShortcutsList` (api.ts lines 174-178):
returns the dispatcher's decoded envelope unchanged. -/
def costShortcutsList {T : Type} (server : String → ResponseMulti T) :
    ResponseMulti T :=
  server "/costs/shortcuts"

/-- The resource operation `equityList` (api.ts lines 253-255): returns
the dispatcher's decoded envelope unchanged. -/
def equityList {T : Type} (server : String → ResponseMulti T) :
    ResponseMulti T :=
  server "/analytics/equity"

/-- The resource operation `notificationsList` (api.ts lines 245-248):
returns `response.result`, the bare array. -/
def notificationsList {T : Type} (server : String → ResponseMulti T) :
    List T :=
  (server "/notifications").result

/-- The resource operation `fetchBasicAnalyticsByPeriod` (api.ts lines
257-265): returns `response.result`, the bare array. -/
def fetchBasicAnalyticsByPeriod {T : Type} (period : String)
    (server : String → ResponseMulti T) : List T :=
  (server ("/analytics/basic?period=" ++ period)).result

/-- The optional analytics filters `AnalyticsFiltersQueryParams`; only
the fields the URL construction reads are modelled.  `none` stands for an
absent field. -/
structure AnalyticsFiltersQueryParams where
  startDate : Option String
  endDate : Option String
  pattern : Option String

/-- JavaScript truthiness of an optional string field: truthy exactly
when present and non-empty. -/
def truthyStr : Option String → Bool
  | none => false
  | some s => !(s == "")

/-- URL construction of `fetchBasicAnalyticsFiltered` (api.ts lines
270-280): the date-range query is appended only when both `startDate` and
`endDate` are truthy; `pattern`, when truthy, is appended with `&` after
a date range and with `?` otherwise. -/
def fetchBasicAnalyticsFilteredUrl (f : AnalyticsFiltersQueryParams) :
    String :=
  let url0 := "/analytics/basic"
  let url1 :=
    if truthyStr f.startDate && truthyStr f.endDate then
      url0 ++ "?startDate=" ++ f.startDate.getD "" ++ "&endDate="
        ++ f.endDate.getD ""
    else url0
  if truthyStr f.pattern then
    if truthyStr f.startDate && truthyStr f.endDate then
      url1 ++ "&pattern=" ++ f.pattern.getD ""
    else
      url1 ++ "?pattern=" ++ f.pattern.getD ""
  else url1

/-- The resource operation `fetchBasicAnalyticsFiltered` (api.ts lines
267-286): build the URL, call the dispatcher, return `response.result`. -/
def fetchBasicAnalyticsFiltered {T : Type} (f : AnalyticsFiltersQueryParams)
    (server : String → ResponseMulti T) : List T :=
  (server (fetchBasicAnalyticsFilteredUrl f)).result

/-- Caller-visible value of `costCategoriesList`: the envelope object. -/
def costCategoriesListValue {T : Type} (server : String → ResponseMulti T) :
    JsValue T :=
  JsValue.obj (costCategoriesList server)

/-- Caller-visible value of `costShortcutsList`: the envelope object. -/
def costShortcutsListValue {T : Type} (server : String → ResponseMulti T) :
    JsValue T :=
  JsValue.obj (costShortcutsList server)

/-- Caller-visible value of `equityList`: the envelope object. -/
def equityListValue {T : Type} (server : String → ResponseMulti T) :
    JsValue T :=
  JsValue.obj (equityList server)

/-- Caller-visible value of `notificationsList`: the bare array. -/
def notificationsListValue {T : Type} (server : String → ResponseMulti T) :
    JsValue T :=
  JsValue.arr (notificationsList server)

/-- Caller-visible value of `fetchBasicAnalyticsByPeriod`: the bare
array. -/
def fetchBasicAnalyticsByPeriodValue {T : Type} (period : String)
    (server : String → ResponseMulti T) : JsValue T :=
  JsValue.arr (fetchBasicAnalyticsByPeriod period server)

/-- Caller-visible value of `fetchBasicAnalyticsFiltered`: the bare
array. -/
def fetchBasicAnalyticsFilteredValue {T : Type}
    (f : AnalyticsFiltersQueryParams) (server : String → ResponseMulti T) :
    JsValue T :=
  JsValue.arr (fetchBasicAnalyticsFiltered f server)

/-- A query-string separator character: `?` or `&`. -/
def isSep (c : Char) : Bool :=
  c == '?' || c == '&'

/-- No two adjacent characters of the list are both separators. -/
def noConsecSep : List Char → Bool
  | a :: b :: t => !(isSep a && isSep b) && noConsecSep (b :: t)
  | _ => true

/-- The last character of the list, if any, is not a separator. -/
def noTrailSep : List Char → Bool
  | [] => true
  | [c] => !(isSep c)
  | _ :: b :: t => noTrailSep (b :: t)

/-- The string contains no separator character at all (the shape expected
of a filter value interpolated into a query string). -/
def sepFree (s : String) : Bool :=
  s.data.all (fun c => !(isSep c))

/-- The contribution of an optional numeric filter to a query string:
`&key=value` when present, nothing when null (the spec's description of
one particle of the transactions URL). -/
def optNum (k : String) : Option Int → String
  | some v => "&" ++ k ++ "=" ++ toString v
  | none => ""

/-- The contribution of an optional string filter to a query string:
`&key=value` when present, nothing when null. -/
def optStr (k : String) : Option String → String
  | some v => "&" ++ k ++ "=" ++ v
  | none => ""

theorem noConsecSep_cons_of_not (a : Char) (t : List Char)
    (h : isSep a = false) : noConsecSep (a :: t) = noConsecSep t := by
  cases t with
  | nil => rfl
  | cons b t => simp [noConsecSep, h]

theorem noConsecSep_append_of :
    ∀ (l t : List Char), noConsecSep l = true → noTrailSep l = true →
      noConsecSep (l ++ t) = noConsecSep t
  | [], _, _, _ => rfl
  | [a], t, _, h2 => by
    have ha : isSep a = false := by
      simpa [noTrailSep] using h2
    simpa using noConsecSep_cons_of_not a t ha
  | a :: b :: l, t, h1, h2 => by
    have h1' : (!(isSep a && isSep b)) = true ∧ noConsecSep (b :: l) = true := by
      simpa [noConsecSep, Bool.and_eq_true] using h1
    have h2' : noTrailSep (b :: l) = true := by
      simpa [noTrailSep] using h2
    have ih := noConsecSep_append_of (b :: l) t h1'.2 h2'
    show noConsecSep (a :: b :: (l ++ t)) = noConsecSep t
    calc noConsecSep (a :: b :: (l ++ t))
        = ((!(isSep a && isSep b)) && noConsecSep (b :: (l ++ t))) := rfl
      _ = noConsecSep ((b :: l) ++ t) := by rw [h1'.1, Bool.true_and]; rfl
      _ = noConsecSep t := ih

theorem noConsecSep_append_allNot (l t : List Char)
    (h : l.all (fun c => !(isSep c)) = true) :
    noConsecSep (l ++ t) = noConsecSep t := by
  induction l with
  | nil => rfl
  | cons a l ih =>
    have h' : (!(isSep a)) = true ∧ l.all (fun c => !(isSep c)) = true := by
      simpa [List.all_cons, Bool.and_eq_true] using h
    have ha : isSep a = false := by
      simpa using h'.1
    rw [List.cons_append, noConsecSep_cons_of_not a (l ++ t) ha, ih h'.2]

theorem noConsecSep_of_allNot (l : List Char)
    (h : l.all (fun c => !(isSep c)) = true) : noConsecSep l = true := by
  have := noConsecSep_append_allNot l [] h
  simpa [noConsecSep] using this

theorem noTrailSep_append :
    ∀ (l t : List Char), t ≠ [] → noTrailSep (l ++ t) = noTrailSep t
  | [], _, _ => rfl
  | [a], t, ht => by
    cases t with
    | nil => exact absurd rfl ht
    | cons b t => rfl
  | a :: b :: l, t, ht => by
    have ih := noTrailSep_append (b :: l) t ht
    show noTrailSep (a :: b :: (l ++ t)) = noTrailSep t
    calc noTrailSep (a :: b :: (l ++ t))
        = noTrailSep (b :: (l ++ t)) := rfl
      _ = noTrailSep ((b :: l) ++ t) := rfl
      _ = noTrailSep t := ih

theorem noTrailSep_of_allNot :
    ∀ (l : List Char), l.all (fun c => !(isSep c)) = true →
      noTrailSep l = true
  | [], _ => rfl
  | [a], h => by
    simpa [noTrailSep] using h
  | a :: b :: l, h => by
    have h' : (!(isSep a)) = true ∧ (b :: l).all (fun c => !(isSep c)) = true := by
      simpa [List.all_cons, Bool.and_eq_true, and_assoc] using h
    have ih := noTrailSep_of_allNot (b :: l) h'.2
    simpa [noTrailSep] using ih

theorem count_q_eq_zero_of_allNot (l : List Char)
    (h : l.all (fun c => !(isSep c)) = true) : l.count '?' = 0 := by
  refine List.count_eq_zero.mpr (fun hq => ?_)
  have := List.all_eq_true.mp h _ hq
  simp [isSep] at this

theorem data_ne_nil_of_ne_empty (s : String) (h : ¬(s = "")) :
    s.data ≠ [] := by
  intro hd
  apply h
  apply String.ext
  simpa using hd

theorem strAppend_assoc (a b c : String) : a ++ b ++ c = a ++ (b ++ c) := by
  apply String.ext
  simp [String.data_append]

theorem strAppend_empty (a : String) : a ++ "" = a := by
  apply String.ext
  simp [String.data_append]

/-- Claim C1: for every call to `transactionsList` with context `c0` for
which the dispatcher returns a paginated payload, the value returned to
the caller keeps the server's `result` and `left` verbatim and recomputes
the outgoing `context` as `c0` plus the number of items received —
independent of the `context` value the server returned (which is
arbitrary in the quantified payload). -/
theorem transactionsList_recomputes_context {T : Type}
    (p : TransactionsListParams) (server : String → PaginatedResponse T) :
    transactionsList p server =
      { result := (server (buildTransactionsUrl p)).result
        left := (server (buildTransactionsUrl p)).left
        context := p.context + (server (buildTransactionsUrl p)).result.length } :=
  rfl

/-- Claim C2: for every request dispatched through `apiCall` whose
response has status 401, the session identity is cleared and the clearing
is committed to durable storage (both components of the final session
state are `none`, so the durable copy is already cleared at the moment the
error value is produced), and the call fails with the API error, for any
endpoint. -/
theorem apiCall_401_clears_session {T β : Type} (stringify : β → String)
    (baseUrl : String) (st : SessionState) (url method : String)
    (body : Option β) (net : ApiRequest → HttpResponse T) (text : String)
    (d : Except String T)
    (hnet : net (mkRequest stringify baseUrl st.identity url method body) =
      ⟨401, text, d⟩) :
    apiCall stringify baseUrl st url method body net =
      (⟨none, none⟩, Except.error ("API error: 401 - " ++ text)) := by
  simp only [apiCall, hnet]
  show (if (401 : Nat) = 401 then flush (setIdentity st none) else st,
      Except.error ("API error: " ++ toString (401 : Nat) ++ " - " ++ text)) =
    (⟨none, none⟩, Except.error ("API error: 401 - " ++ text))
  rfl

/-- Witness for C2 at a concrete endpoint, session and response. -/
theorem apiCall_401_clears_session_witness :
    apiCall (fun (_ : Unit) => "") "http://api" ⟨some ⟨"tok"⟩, some ⟨"tok"⟩⟩
        "/costs" "GET" none
        (fun _ => (⟨401, "unauthorized", Except.ok 7⟩ : HttpResponse Nat)) =
      (⟨none, none⟩, Except.error ("API error: 401 - " ++ "unauthorized")) :=
  apiCall_401_clears_session (fun (_ : Unit) => "") "http://api"
    ⟨some ⟨"tok"⟩, some ⟨"tok"⟩⟩ "/costs" "GET" none
    (fun _ => (⟨401, "unauthorized", Except.ok 7⟩ : HttpResponse Nat))
    "unauthorized" (Except.ok 7) rfl

/-- Claim C3: for every request built by `apiCall`, if the session holds
an identity with a non-empty access token then the headers are exactly
`Content-Type` followed by `Authorization: Bearer <token>`; otherwise the
headers are exactly `Content-Type` alone, so the `Authorization` key is
absent entirely, and the request is still assembled. -/
theorem apiCall_authorization_header {β : Type} (stringify : β → String)
    (baseUrl : String) (ident : Option Identity) (url method : String)
    (body : Option β) :
    (∀ id, ident = some id → ¬(id.accessToken = "") →
      (mkRequest stringify baseUrl ident url method body).headers =
        [("Content-Type", "application/json"),
         ("Authorization", "Bearer " ++ id.accessToken)]) ∧
    (tokenTruthy ident = false →
      (mkRequest stringify baseUrl ident url method body).headers =
        [("Content-Type", "application/json")]) := by
  constructor
  · intro id hid htok
    subst hid
    have hne : (id.accessToken == "") = false := by
      simpa using htok
    simp [mkRequest, buildHeaders, hne]
  · intro hfalse
    cases ident with
    | none => rfl
    | some id =>
      have heq : (id.accessToken == "") = true := by
        simpa [tokenTruthy] using hfalse
      simp [mkRequest, buildHeaders, heq]

/-- Witness for C3: a token-bearing session gets the bearer header, an
empty-token session gets no `Authorization` entry. -/
theorem apiCall_authorization_header_witness :
    (mkRequest (fun (_ : Unit) => "") "http://api" (some ⟨"tok"⟩) "/costs"
        "GET" none).headers =
      [("Content-Type", "application/json"),
       ("Authorization", "Bearer " ++ "tok")] ∧
    (mkRequest (fun (_ : Unit) => "") "http://api" (some ⟨""⟩) "/costs"
        "GET" none).headers =
      [("Content-Type", "application/json")] :=
  ⟨(apiCall_authorization_header (fun (_ : Unit) => "") "http://api"
      (some ⟨"tok"⟩) "/costs" "GET" none).1 ⟨"tok"⟩ rfl (by decide),
   (apiCall_authorization_header (fun (_ : Unit) => "") "http://api"
      (some ⟨""⟩) "/costs" "GET" none).2 (by decide)⟩

/-- Claim C4: for every response with a non-success status other than
401, `apiCall` fails with an error whose message contains the numeric
status and the response body text, and the session state is returned
unchanged. -/
theorem apiCall_non2xx_non401 {T β : Type} (stringify : β → String)
    (baseUrl : String) (st : SessionState) (url method : String)
    (body : Option β) (net : ApiRequest → HttpResponse T) (status : Nat)
    (text : String) (d : Except String T)
    (hnet : net (mkRequest stringify baseUrl st.identity url method body) =
      ⟨status, text, d⟩)
    (hok : okStatus status = false) (h401 : status ≠ 401) :
    apiCall stringify baseUrl st url method body net =
      (st, Except.error ("API error: " ++ toString status ++ " - " ++ text)) ∧
    (∃ l r : String,
      "API error: " ++ toString status ++ " - " ++ text =
        l ++ toString status ++ r) ∧
    (∃ l r : String,
      "API error: " ++ toString status ++ " - " ++ text = l ++ text ++ r) := by
  refine ⟨?_, ?_, ?_⟩
  · simp only [apiCall, hnet]
    simp [hok, h401]
  · exact ⟨"API error: ", " - " ++ text, by
      rw [strAppend_assoc, strAppend_assoc]⟩
  · exact ⟨"API error: " ++ toString status ++ " - ", "", by
      rw [strAppend_empty]⟩

/-- Witness for C4: status 500 with body `server exploded` leaves a
token-bearing session intact and produces the documented message. -/
theorem apiCall_non2xx_non401_witness :
    apiCall (fun (_ : Unit) => "") "http://api" ⟨some ⟨"tok"⟩, some ⟨"tok"⟩⟩
        "/costs" "GET" none
        (fun _ => (⟨500, "server exploded", Except.ok 7⟩ : HttpResponse Nat)) =
      (⟨some ⟨"tok"⟩, some ⟨"tok"⟩⟩,
        Except.error
          ("API error: " ++ toString (500 : Nat) ++ " - " ++ "server exploded")) ∧
    (∃ l r : String,
      "API error: " ++ toString (500 : Nat) ++ " - " ++ "server exploded" =
        l ++ toString (500 : Nat) ++ r) ∧
    (∃ l r : String,
      "API error: " ++ toString (500 : Nat) ++ " - " ++ "server exploded" =
        l ++ "server exploded" ++ r) :=
  apiCall_non2xx_non401 (fun (_ : Unit) => "") "http://api"
    ⟨some ⟨"tok"⟩, some ⟨"tok"⟩⟩ "/costs" "GET" none
    (fun _ => (⟨500, "server exploded", Except.ok 7⟩ : HttpResponse Nat))
    500 "server exploded" (Except.ok 7) rfl (by decide) (by decide)

/-- Claim C5: for every response with status 204, `apiCall` resolves to
the absent result without decoding a body — the decode outcome `d` is
arbitrary, including a decode failure, and the session is unchanged. -/
theorem apiCall_204_empty {T β : Type} (stringify : β → String)
    (baseUrl : String) (st : SessionState) (url method : String)
    (body : Option β) (net : ApiRequest → HttpResponse T) (text : String)
    (d : Except String T)
    (hnet : net (mkRequest stringify baseUrl st.identity url method body) =
      ⟨204, text, d⟩) :
    apiCall stringify baseUrl st url method body net = (st, Except.ok none) := by
  simp only [apiCall, hnet]
  rfl

/-- Witness for C5: a 204 response whose body would not even decode still
resolves to the absent result. -/
theorem apiCall_204_empty_witness :
    apiCall (fun (_ : Unit) => "") "http://api" ⟨none, none⟩ "/costs/1"
        "DELETE" none
        (fun _ => (⟨204, "", Except.error "not json"⟩ : HttpResponse Nat)) =
      (⟨none, none⟩, Except.ok none) :=
  apiCall_204_empty (fun (_ : Unit) => "") "http://api" ⟨none, none⟩
    "/costs/1" "DELETE" none
    (fun _ => (⟨204, "", Except.error "not json"⟩ : HttpResponse Nat)) ""
    (Except.error "not json") rfl

/-- Claim C9: a call to `costShortcutApply` with no request body produces
a request whose body field is absent, not a serialized `null`. -/
theorem costShortcutApply_absent_body {β : Type} (stringify : β → String)
    (baseUrl : String) (ident : Option Identity) (shortcutId : Int) :
    (costShortcutApplyRequest stringify baseUrl ident shortcutId
        (none : Option β)).body = none :=
  rfl

/-- Claim C6: for every combination of optional filters, the URL built by
`transactionsList` is the always-present `/transactions?context=..&limit=..`
head followed by exactly the non-null filters, each as `&key=value`, in
the fixed order currencyId, costCategoryId, period, startDate, endDate,
operation; null filters contribute nothing. -/
theorem transactionsUrl_filter_particles (p : TransactionsListParams) :
    buildTransactionsUrl p =
      "/transactions?context=" ++ toString p.context ++ "&limit="
        ++ toString p.limit
        ++ optNum "currencyId" p.currencyId
        ++ optNum "costCategoryId" p.costCategoryId
        ++ optStr "period" p.period
        ++ optStr "startDate" p.startDate
        ++ optStr "endDate" p.endDate
        ++ optStr "operation" p.operation := by
  obtain ⟨cu, cc, pe, sd, ed, op, ctx, lim⟩ := p
  cases cu <;> cases cc <;> cases pe <;> cases sd <;> cases ed <;> cases op <;>
    (apply String.ext;
     simp [buildTransactionsUrl, optNum, optStr, String.data_append])

/-- Claim C10: when exactly one of `startDate` and `endDate` is set, the
date parameters are silently dropped: the URL built by
`fetchBasicAnalyticsFiltered` is the one obtained with no date range at
all — only `pattern`, when truthy, appears. -/
theorem analyticsFilteredUrl_partial_range_dropped
    (f : AnalyticsFiltersQueryParams)
    (h : truthyStr f.startDate = true ∧ truthyStr f.endDate = false ∨
      truthyStr f.startDate = false ∧ truthyStr f.endDate = true) :
    fetchBasicAnalyticsFilteredUrl f =
      (if truthyStr f.pattern then
        "/analytics/basic?pattern=" ++ f.pattern.getD ""
      else "/analytics/basic") ∧
    fetchBasicAnalyticsFilteredUrl f =
      fetchBasicAnalyticsFilteredUrl ⟨none, none, f.pattern⟩ := by
  have hand : (truthyStr f.startDate && truthyStr f.endDate) = false := by
    rcases h with ⟨h1, h2⟩ | ⟨h1, h2⟩ <;> simp [h1, h2]
  have hnone : truthyStr none = false := rfl
  have hlit : ("/analytics/basic" ++ "?pattern=" : String) =
      "/analytics/basic?pattern=" := rfl
  cases hp : truthyStr f.pattern <;>
    refine ⟨?_, ?_⟩ <;>
      (simp only [fetchBasicAnalyticsFilteredUrl, hand];
       simp [hnone, hp, hlit])

/-- Witness for C10: with only a start date set, the URL carries only the
pattern. -/
theorem analyticsFilteredUrl_partial_range_dropped_witness :
    fetchBasicAnalyticsFilteredUrl
        ⟨some "2024-01-01", none, some "groceries"⟩ =
      (if truthyStr (some "groceries") then
        "/analytics/basic?pattern=" ++ (some "groceries").getD ""
      else "/analytics/basic") ∧
    fetchBasicAnalyticsFilteredUrl
        ⟨some "2024-01-01", none, some "groceries"⟩ =
      fetchBasicAnalyticsFilteredUrl ⟨none, none, some "groceries"⟩ :=
  analyticsFilteredUrl_partial_range_dropped
    ⟨some "2024-01-01", none, some "groceries"⟩ (Or.inl ⟨by decide, by decide⟩)

theorem truthyStr_getD_ne (o : Option String) (h : truthyStr o = true) :
    ¬(o.getD "" = "") := by
  cases o with
  | none => simp [truthyStr] at h
  | some s => simpa [truthyStr] using h

/-- Claim C7: for every combination of present and absent analytics
filters whose values are free of separator characters, the URL built by
`fetchBasicAnalyticsFiltered` contains at most one `?`, never two
adjacent separators, and no trailing separator; a truthy `pattern`
without the date range becomes the first query parameter `?pattern=`,
and with the date range it is appended with `&`. -/
theorem analyticsFilteredUrl_separators (f : AnalyticsFiltersQueryParams)
    (hs : sepFree (f.startDate.getD "") = true)
    (he : sepFree (f.endDate.getD "") = true)
    (hp : sepFree (f.pattern.getD "") = true) :
    (fetchBasicAnalyticsFilteredUrl f).data.count '?' ≤ 1 ∧
    noConsecSep (fetchBasicAnalyticsFilteredUrl f).data = true ∧
    noTrailSep (fetchBasicAnalyticsFilteredUrl f).data = true ∧
    (truthyStr f.pattern = true →
      (truthyStr f.startDate && truthyStr f.endDate) = false →
      fetchBasicAnalyticsFilteredUrl f =
        "/analytics/basic?pattern=" ++ f.pattern.getD "") ∧
    (truthyStr f.pattern = true →
      (truthyStr f.startDate && truthyStr f.endDate) = true →
      fetchBasicAnalyticsFilteredUrl f =
        "/analytics/basic?startDate=" ++ f.startDate.getD "" ++ "&endDate="
          ++ f.endDate.getD "" ++ "&pattern=" ++ f.pattern.getD "") := by
  have hs' : (f.startDate.getD "").data.all (fun c => !(isSep c)) = true := hs
  have he' : (f.endDate.getD "").data.all (fun c => !(isSep c)) = true := he
  have hp' : (f.pattern.getD "").data.all (fun c => !(isSep c)) = true := hp
  cases hdr : (truthyStr f.startDate && truthyStr f.endDate) with
  | false =>
    cases hp2 : truthyStr f.pattern with
    | false =>
      have hurl : fetchBasicAnalyticsFilteredUrl f = "/analytics/basic" := by
        simp [fetchBasicAnalyticsFilteredUrl, hdr, hp2]
      refine ⟨?_, ?_, ?_, ?_, ?_⟩
      · rw [hurl]; decide
      · rw [hurl]; decide
      · rw [hurl]; decide
      · intro h1 _; simp [hp2] at h1
      · intro h1 _; simp [hp2] at h1
    | true =>
      have hurl : fetchBasicAnalyticsFilteredUrl f =
          "/analytics/basic" ++ "?pattern=" ++ f.pattern.getD "" := by
        simp [fetchBasicAnalyticsFilteredUrl, hdr, hp2]
      have hp_ne : (f.pattern.getD "").data ≠ [] :=
        data_ne_nil_of_ne_empty _ (truthyStr_getD_ne _ hp2)
      have hdata : (fetchBasicAnalyticsFilteredUrl f).data =
          "/analytics/basic".data ++ ("?pattern=".data
            ++ (f.pattern.getD "").data) := by
        rw [hurl]; simp [String.data_append, List.append_assoc]
      have hdata2 : (fetchBasicAnalyticsFilteredUrl f).data =
          ("/analytics/basic".data ++ "?pattern=".data)
            ++ (f.pattern.getD "").data := by
        rw [hurl]; simp [String.data_append, List.append_assoc]
      refine ⟨?_, ?_, ?_, ?_, ?_⟩
      · rw [hdata]
        simp only [List.count_append]
        rw [count_q_eq_zero_of_allNot _ hp']
        decide
      · rw [hdata]
        rw [noConsecSep_append_of "/analytics/basic".data _ (by decide)
          (by decide)]
        rw [noConsecSep_append_of "?pattern=".data _ (by decide) (by decide)]
        exact noConsecSep_of_allNot _ hp'
      · rw [hdata2, noTrailSep_append _ _ hp_ne]
        exact noTrailSep_of_allNot _ hp'
      · intro _ _; rw [hurl]; rfl
      · intro _ h2; simp [hdr] at h2
  | true =>
    have hdr' : truthyStr f.startDate = true ∧ truthyStr f.endDate = true := by
      simpa [Bool.and_eq_true] using hdr
    have hed_ne : (f.endDate.getD "").data ≠ [] :=
      data_ne_nil_of_ne_empty _ (truthyStr_getD_ne _ hdr'.2)
    cases hp2 : truthyStr f.pattern with
    | false =>
      have hurl : fetchBasicAnalyticsFilteredUrl f =
          "/analytics/basic" ++ "?startDate=" ++ f.startDate.getD ""
            ++ "&endDate=" ++ f.endDate.getD "" := by
        simp [fetchBasicAnalyticsFilteredUrl, hdr, hp2]
      have hdata : (fetchBasicAnalyticsFilteredUrl f).data =
          "/analytics/basic".data ++ ("?startDate=".data
            ++ ((f.startDate.getD "").data ++ ("&endDate=".data
              ++ (f.endDate.getD "").data))) := by
        rw [hurl]; simp [String.data_append, List.append_assoc]
      have hdata2 : (fetchBasicAnalyticsFilteredUrl f).data =
          ("/analytics/basic".data ++ "?startDate=".data
            ++ (f.startDate.getD "").data ++ "&endDate=".data)
            ++ (f.endDate.getD "").data := by
        rw [hurl]; simp [String.data_append, List.append_assoc]
      refine ⟨?_, ?_, ?_, ?_, ?_⟩
      · rw [hdata]
        simp only [List.count_append]
        rw [count_q_eq_zero_of_allNot _ hs', count_q_eq_zero_of_allNot _ he']
        decide
      · rw [hdata]
        rw [noConsecSep_append_of "/analytics/basic".data _ (by decide)
          (by decide)]
        rw [noConsecSep_append_of "?startDate=".data _ (by decide) (by decide)]
        rw [noConsecSep_append_allNot _ _ hs']
        rw [noConsecSep_append_of "&endDate=".data _ (by decide) (by decide)]
        exact noConsecSep_of_allNot _ he'
      · rw [hdata2, noTrailSep_append _ _ hed_ne]
        exact noTrailSep_of_allNot _ he'
      · intro h1 _; simp [hp2] at h1
      · intro h1 _; simp [hp2] at h1
    | true =>
      have hp_ne : (f.pattern.getD "").data ≠ [] :=
        data_ne_nil_of_ne_empty _ (truthyStr_getD_ne _ hp2)
      have hurl : fetchBasicAnalyticsFilteredUrl f =
          "/analytics/basic" ++ "?startDate=" ++ f.startDate.getD ""
            ++ "&endDate=" ++ f.endDate.getD "" ++ "&pattern="
            ++ f.pattern.getD "" := by
        simp [fetchBasicAnalyticsFilteredUrl, hdr, hp2]
      have hdata : (fetchBasicAnalyticsFilteredUrl f).data =
          "/analytics/basic".data ++ ("?startDate=".data
            ++ ((f.startDate.getD "").data ++ ("&endDate=".data
              ++ ((f.endDate.getD "").data ++ ("&pattern=".data
                ++ (f.pattern.getD "").data))))) := by
        rw [hurl]; simp [String.data_append, List.append_assoc]
      have hdata2 : (fetchBasicAnalyticsFilteredUrl f).data =
          ("/analytics/basic".data ++ "?startDate=".data
            ++ (f.startDate.getD "").data ++ "&endDate=".data
            ++ (f.endDate.getD "").data ++ "&pattern=".data)
            ++ (f.pattern.getD "").data := by
        rw [hurl]; simp [String.data_append, List.append_assoc]
      refine ⟨?_, ?_, ?_, ?_, ?_⟩
      · rw [hdata]
        simp only [List.count_append]
        rw [count_q_eq_zero_of_allNot _ hs', count_q_eq_zero_of_allNot _ he',
          count_q_eq_zero_of_allNot _ hp']
        decide
      · rw [hdata]
        rw [noConsecSep_append_of "/analytics/basic".data _ (by decide)
          (by decide)]
        rw [noConsecSep_append_of "?startDate=".data _ (by decide) (by decide)]
        rw [noConsecSep_append_allNot _ _ hs']
        rw [noConsecSep_append_of "&endDate=".data _ (by decide) (by decide)]
        rw [noConsecSep_append_allNot _ _ he']
        rw [noConsecSep_append_of "&pattern=".data _ (by decide) (by decide)]
        exact noConsecSep_of_allNot _ hp'
      · rw [hdata2, noTrailSep_append _ _ hp_ne]
        exact noTrailSep_of_allNot _ hp'
      · intro _ h2; simp [hdr] at h2
      · intro _ _; rw [hurl]; rfl

/-- Witness for C7 with both date bounds and a pattern present. -/
theorem analyticsFilteredUrl_separators_witness :
    (fetchBasicAnalyticsFilteredUrl
        ⟨some "2024-01-01", some "2024-12-31", some "food"⟩).data.count '?' ≤ 1 ∧
    noConsecSep (fetchBasicAnalyticsFilteredUrl
        ⟨some "2024-01-01", some "2024-12-31", some "food"⟩).data = true ∧
    noTrailSep (fetchBasicAnalyticsFilteredUrl
        ⟨some "2024-01-01", some "2024-12-31", some "food"⟩).data = true ∧
    (truthyStr (some "food") = true →
      (truthyStr (some "2024-01-01") && truthyStr (some "2024-12-31")) = false →
      fetchBasicAnalyticsFilteredUrl
          ⟨some "2024-01-01", some "2024-12-31", some "food"⟩ =
        "/analytics/basic?pattern=" ++ (some "food").getD "") ∧
    (truthyStr (some "food") = true →
      (truthyStr (some "2024-01-01") && truthyStr (some "2024-12-31")) = true →
      fetchBasicAnalyticsFilteredUrl
          ⟨some "2024-01-01", some "2024-12-31", some "food"⟩ =
        "/analytics/basic?startDate=" ++ (some "2024-01-01").getD ""
          ++ "&endDate=" ++ (some "2024-12-31").getD "" ++ "&pattern="
          ++ (some "food").getD "") :=
  analyticsFilteredUrl_separators
    ⟨some "2024-01-01", some "2024-12-31", some "food"⟩ (by decide) (by decide)
    (by decide)

/-- Claim C8 counterexample: `equityList` does not unwrap the
multi-result envelope — on the payload with items `[1]` the caller
receives the envelope object, not the bare sequence `[1]`. -/
theorem equityList_keeps_envelope_cex :
    equityListValue (fun _ => (⟨[1]⟩ : ResponseMulti Nat)) ≠
      JsValue.arr [1] ∧
    equityListValue (fun _ => (⟨[1]⟩ : ResponseMulti Nat)) =
      JsValue.obj ⟨[1]⟩ :=
  ⟨by decide, by decide⟩

/-- Claim C8 amended: `notificationsList`, `fetchBasicAnalyticsByPeriod`
and `fetchBasicAnalyticsFiltered` unwrap the multi-result envelope and
return the bare sequence, while `costCategoriesList`, `costShortcutsList`
and `equityList` return the envelope unchanged. -/
theorem listOperations_envelope_amended {T : Type} (resp : ResponseMulti T)
    (period : String) (f : AnalyticsFiltersQueryParams) :
    costCategoriesListValue (fun _ => resp) = JsValue.obj resp ∧
    costShortcutsListValue (fun _ => resp) = JsValue.obj resp ∧
    equityListValue (fun _ => resp) = JsValue.obj resp ∧
    notificationsListValue (fun _ => resp) = JsValue.arr resp.result ∧
    fetchBasicAnalyticsByPeriodValue period (fun _ => resp) =
      JsValue.arr resp.result ∧
    fetchBasicAnalyticsFilteredValue f (fun _ => resp) =
      JsValue.arr resp.result :=
  ⟨rfl, rfl, rfl, rfl, rfl, rfl⟩

end Fambb
